import Mathlib

/-!
Verification of the MUTT telemetry daemon against its specification.

This file shallowly embeds the parts of the Python source that the
checked properties speak about:

* `mutt/models/message.py`   — `Severity`, `MessageType`, `Message`
* `mutt/listeners/syslog_listener.py` — `SyslogListener._parse_syslog_message`
* `mutt/processors/validator.py`      — `Validator.validate`
* `mutt/processors/pattern_matcher.py`— `PatternMatcher.match`
* `mutt/processors/message_router.py` — `MessageRouter.route`
* `mutt/storage/buffer.py`            — `FileBuffer.write` / `FileBuffer.flush`
* `mutt/models/credentials.py`        — `SNMPv3CredentialSet.get_active_credentials`
* `mutt/storage/auth_failure_tracker.py` — `record_failure` / `get_all_failures`
* `mutt/storage/archive_manager.py`   — `ArchiveManager.archive_old_messages`

Modelling conventions: machine state (SQLite tables, files, in-memory
buffers) is explicit state passing; Python exceptions are `Except`;
character classes of Python's `re` module are restricted to their ASCII
portion; timestamps are abstract `Nat` instants (ISO-8601 rendering of
`datetime` values is order-preserving and injective, so `<` on instants
models `<` on the stored strings).
-/

/-- `Severity` enum from `mutt/models/message.py` (values are the member
names themselves). -/
inductive Severity where
  | EMERGENCY | ALERT | CRITICAL | ERROR | WARNING | NOTICE | INFO | DEBUG
  deriving DecidableEq, Repr

/-- `MessageType` enum from `mutt/models/message.py`. -/
inductive MessageType where
  | SYSLOG | SNMP_TRAP | UNKNOWN
  deriving DecidableEq, Repr

/-- `.value` of a `Severity` member (the enum values are these strings). -/
def Severity.value : Severity → String
  | .EMERGENCY => "EMERGENCY"
  | .ALERT => "ALERT"
  | .CRITICAL => "CRITICAL"
  | .ERROR => "ERROR"
  | .WARNING => "WARNING"
  | .NOTICE => "NOTICE"
  | .INFO => "INFO"
  | .DEBUG => "DEBUG"

/-- `Severity(s)`: enum lookup by value; `none` models the `ValueError`. -/
def Severity.ofValue (s : String) : Option Severity :=
  if s = "EMERGENCY" then some .EMERGENCY
  else if s = "ALERT" then some .ALERT
  else if s = "CRITICAL" then some .CRITICAL
  else if s = "ERROR" then some .ERROR
  else if s = "WARNING" then some .WARNING
  else if s = "NOTICE" then some .NOTICE
  else if s = "INFO" then some .INFO
  else if s = "DEBUG" then some .DEBUG
  else none

/-- `.value` of a `MessageType` member. -/
def MessageType.value : MessageType → String
  | .SYSLOG => "SYSLOG"
  | .SNMP_TRAP => "SNMP_TRAP"
  | .UNKNOWN => "UNKNOWN"

/-- `MessageType(s)`: enum lookup by value; `none` models the `ValueError`. -/
def MessageType.ofValue (s : String) : Option MessageType :=
  if s = "SYSLOG" then some .SYSLOG
  else if s = "SNMP_TRAP" then some .SNMP_TRAP
  else if s = "UNKNOWN" then some .UNKNOWN
  else none

/-- Message metadata, `Dict[str, Any]` in the source.  The properties
checked here only ever read or write list-of-string values (the
`validation_errors` entry written by `Validator.validate`), so metadata
is embedded as an association list from keys to lists of strings; other
entries are never inspected by the embedded operations. -/
def Metadata : Type := List (String × List String)

instance : DecidableEq Metadata := by
  unfold Metadata
  infer_instance

/-- The seven persisted fields of `Message` (`mutt/models/message.py`).
`timestamp` is an abstract UTC instant. -/
structure Message where
  id : String
  timestamp : Nat
  source_ip : String
  message_type : MessageType
  severity : Severity
  payload : String
  metadata : Metadata
  deriving DecidableEq

/-! ## Syslog parsing (`mutt/listeners/syslog_listener.py`)

The listener's RFC 3164 regex is

  `<(\d+)>(\w{3}\s+\d+\s+\d+:\d+:\d+)\s+([\w\.-]+)\s+([^:]+):\s*(.*)`

compiled with `re.DOTALL` and applied with `re.match` (anchored at the
start).  Except at the single junction `\s+([^:]+)` — whose classes
overlap on whitespace — every adjacent pair of greedy pieces draws from
disjoint character classes, so Python's leftmost-greedy backtracking
semantics coincide with maximal-munch; at the one overlapping junction
the engine donates exactly one whitespace character to `[^:]+` when a
colon immediately follows the whitespace run.  The embedding below
implements exactly that. -/

/-- ASCII portion of Python's `\d`. -/
def isDigitChar (c : Char) : Bool := '0' ≤ c && c ≤ '9'

/-- ASCII portion of Python's `\w` (`[a-zA-Z0-9_]`). -/
def isWordChar (c : Char) : Bool :=
  ('a' ≤ c && c ≤ 'z') || ('A' ≤ c && c ≤ 'Z') || isDigitChar c || c = '_'

/-- ASCII portion of Python's `\s`. -/
def isSpaceChar (c : Char) : Bool :=
  c = ' ' || c = '\t' || c = '\n' || c = '\x0d' || c = '\x0b' || c = '\x0c'

/-- Character class `[\w\.-]` of the hostname group. -/
def isHostChar (c : Char) : Bool := isWordChar c || c = '.' || c = '-'

/-- `re.match` of `SYSLOG_REGEX` on `text`: `some` of the five captured
groups on success, `none` on failure. -/
def SYSLOG_REGEX_match (text : String) :
    Option (String × String × String × String × String) :=
  match text.toList with
  | '<' :: r0 =>
    -- (\d+)>
    let (pri, r1) := r0.span isDigitChar
    if pri.isEmpty then none else
    match r1 with
    | '>' :: r2 =>
      -- (\w{3}\s+\d+\s+\d+:\d+:\d+)
      match r2 with
      | a :: b :: c :: r3 =>
        if isWordChar a && isWordChar b && isWordChar c then
          let (ws1, r4) := r3.span isSpaceChar
          if ws1.isEmpty then none else
          let (d1, r5) := r4.span isDigitChar
          if d1.isEmpty then none else
          let (ws2, r6) := r5.span isSpaceChar
          if ws2.isEmpty then none else
          let (hh, r7) := r6.span isDigitChar
          if hh.isEmpty then none else
          match r7 with
          | ':' :: r8 =>
            let (mm, r9) := r8.span isDigitChar
            if mm.isEmpty then none else
            match r9 with
            | ':' :: r10 =>
              let (ss, r11) := r10.span isDigitChar
              if ss.isEmpty then none else
              let g2 := [a, b, c] ++ ws1 ++ d1 ++ ws2 ++ hh ++ [':'] ++ mm
                          ++ [':'] ++ ss
              -- \s+([\w\.-]+)
              let (ws3, r12) := r11.span isSpaceChar
              if ws3.isEmpty then none else
              let (host, r13) := r12.span isHostChar
              if host.isEmpty then none else
              -- \s+([^:]+):  (the one backtracking junction)
              let (ws4, r14) := r13.span isSpaceChar
              if ws4.isEmpty then none else
              let (tag, r15) := r14.span (fun ch => ch ≠ ':')
              if tag.isEmpty then
                -- next char is ':' (or end): donate one space to [^:]+
                if 2 ≤ ws4.length then
                  match r15 with
                  | ':' :: r16 =>
                    let (_, r17) := r16.span isSpaceChar
                    some (String.mk pri, String.mk g2, String.mk host,
                          String.mk [' '], String.mk r17)
                  | _ => none
                else none
              else
                match r15 with
                | ':' :: r16 =>
                  -- :\s*(.*)  with DOTALL: the payload is the whole rest
                  let (_, r17) := r16.span isSpaceChar
                  some (String.mk pri, String.mk g2, String.mk host,
                        String.mk tag, String.mk r17)
                | _ => none
            | _ => none
          | _ => none
        else none
      | _ => none
    | _ => none
  | _ => none

/-- `int(s)` restricted to a non-empty digit string. -/
def digitsToNat (s : String) : Nat :=
  s.toList.foldl (fun n c => n * 10 + (c.toNat - '0'.toNat)) 0

/-- `SEVERITY_MAP` of `SyslogListener`: keys 0–7, absent otherwise. -/
def SEVERITY_MAP (n : Nat) : Option Severity :=
  if n = 0 then some .EMERGENCY
  else if n = 1 then some .ALERT
  else if n = 2 then some .CRITICAL
  else if n = 3 then some .ERROR
  else if n = 4 then some .WARNING
  else if n = 5 then some .NOTICE
  else if n = 6 then some .INFO
  else if n = 7 then some .DEBUG
  else none

/-- The fields of `SyslogMessage` that `_parse_syslog_message` sets
(`id`, `timestamp` and `metadata` take dataclass defaults and are not
constrained by the checked claims). -/
structure SyslogMessage where
  source_ip : String
  message_type : MessageType
  severity : Severity
  payload : String
  facility : Nat
  priority : Nat
  hostname : String
  process_name : String
  deriving DecidableEq

/-- `SyslogListener._parse_syslog_message`.  The Python function returns
`Optional` only because of a blanket `except` that no path of the body
can trigger; the embedding is total.  `text` is the datagram after
UTF-8-decode-with-replacement and `strip()` (done by `process_data`). -/
def parse_syslog_message (text source_ip : String) : SyslogMessage :=
  match SYSLOG_REGEX_match text with
  | some (priority_str, _timestamp, hostname, process_name, payload) =>
      let priority := digitsToNat priority_str
      let facility := priority / 8
      let severity_num := priority % 8
      let severity := (SEVERITY_MAP severity_num).getD .INFO
      { source_ip := source_ip, message_type := .SYSLOG, severity := severity,
        payload := payload, facility := facility, priority := priority,
        hostname := hostname, process_name := process_name }
  | none =>
      { source_ip := source_ip, message_type := .SYSLOG, severity := .INFO,
        payload := text, facility := 1, priority := 13,
        hostname := "unknown", process_name := "unknown" }

/-- The severity map as the specification words it:
0=EMERGENCY, 1=ALERT, 2=CRITICAL, 3=ERROR, 4=WARNING, 5=NOTICE, 6=INFO,
7=DEBUG (only ever applied to residues mod 8). -/
def severityOfNum : Nat → Severity
  | 0 => .EMERGENCY
  | 1 => .ALERT
  | 2 => .CRITICAL
  | 3 => .ERROR
  | 4 => .WARNING
  | 5 => .NOTICE
  | 6 => .INFO
  | _ => .DEBUG

lemma severity_map_getD_eq (p : Nat) :
    (SEVERITY_MAP (p % 8)).getD .INFO = severityOfNum (p % 8) := by
  have h : p % 8 < 8 := Nat.mod_lt _ (by norm_num)
  set k := p % 8 with hk
  interval_cases k <;> rfl

/-- C1: a datagram matching the RFC 3164 header grammar yields a message
with `facility = PRI / 8` and severity given by the spec's map applied
to `PRI % 8` (0=EMERGENCY … 7=DEBUG), where `PRI` is the integer value
of the first captured group. -/
theorem syslog_parse_facility_severity
    (text source_ip g1 g2 g3 g4 g5 : String)
    (h : SYSLOG_REGEX_match text = some (g1, g2, g3, g4, g5)) :
    (parse_syslog_message text source_ip).facility = digitsToNat g1 / 8 ∧
    (parse_syslog_message text source_ip).severity
      = severityOfNum (digitsToNat g1 % 8) := by
  unfold parse_syslog_message
  rw [h]
  exact ⟨rfl, severity_map_getD_eq (digitsToNat g1)⟩

/-- C1 witness: the spec's scenario datagram
`<134>Jan 09 20:30:00 myhost myproc: test message` has PRI 134,
facility 16 and severity INFO (134 % 8 = 6). -/
theorem syslog_parse_facility_severity_witness :
    (parse_syslog_message "<134>Jan 09 20:30:00 myhost myproc: test message"
        "10.0.0.1").facility = 16 ∧
    (parse_syslog_message "<134>Jan 09 20:30:00 myhost myproc: test message"
        "10.0.0.1").severity = Severity.INFO := by
  have h := syslog_parse_facility_severity
    "<134>Jan 09 20:30:00 myhost myproc: test message" "10.0.0.1"
    "134" "Jan 09 20:30:00" "myhost" "myproc" "test message" (by decide)
  exact ⟨h.1.trans (by decide), h.2.trans (by decide)⟩

/-- C7: a datagram whose (decoded, stripped) text does not match the
header grammar is not dropped: it still yields a message, taking the
whole text as payload with defaults priority=13, facility=1,
severity=INFO, hostname and process name `unknown`. -/
theorem syslog_parse_fallback
    (text source_ip : String)
    (h : SYSLOG_REGEX_match text = none) :
    parse_syslog_message text source_ip =
      { source_ip := source_ip, message_type := .SYSLOG,
        severity := .INFO, payload := text, facility := 1, priority := 13,
        hostname := "unknown", process_name := "unknown" } := by
  unfold parse_syslog_message
  rw [h]

/-- C7 witness: the spec's scenario `invalid message`. -/
theorem syslog_parse_fallback_witness :
    parse_syslog_message "invalid message" "10.0.0.1" =
      { source_ip := "10.0.0.1", message_type := .SYSLOG,
        severity := .INFO, payload := "invalid message", facility := 1,
        priority := 13, hostname := "unknown", process_name := "unknown" } :=
  syslog_parse_fallback "invalid message" "10.0.0.1" (by decide)

/-! ## Validator (`mutt/processors/validator.py`) -/

/-- `md[k]` on the metadata dict: first (unique) binding of `k`. -/
def getMeta (k : String) : Metadata → Option (List String)
  | [] => none
  | (k', v) :: t => if k' = k then some v else getMeta k t

/-- `md[k] = v` on the metadata dict: overwrite the binding of `k` if
present, else append a new one (Python dicts keep insertion order). -/
def setMeta (k : String) (v : List String) : Metadata → Metadata
  | [] => [(k, v)]
  | (k', v') :: t => if k' = k then (k', v) :: t else (k', v') :: setMeta k v t

/-- `Validator.validate`.  The Python method mutates `msg.metadata`;
the embedding returns the boolean result together with the updated
message. -/
def validate (msg : Message) : Bool × Message :=
  -- Initialize validation errors list if it doesn't exist
  let md0 : Metadata :=
    match getMeta "validation_errors" msg.metadata with
    | none => setMeta "validation_errors" [] msg.metadata
    | some _ => msg.metadata
  let errors : List String :=
    (if msg.source_ip = "" then ["Missing required field: source_ip"] else [])
      ++ (if msg.payload = "" then ["Payload cannot be empty"] else [])
  if errors.isEmpty then
    (true, { msg with metadata := md0 })
  else
    (false,
     { msg with
         metadata :=
           setMeta "validation_errors"
             ((getMeta "validation_errors" md0).getD [] ++ errors) md0 })

lemma getMeta_setMeta (k : String) (v : List String) (md : Metadata) :
    getMeta k (setMeta k v md) = some v := by
  induction md with
  | nil => simp [getMeta, setMeta]
  | cons h t ih =>
      obtain ⟨k', v'⟩ := h
      by_cases hk : k' = k <;> simp [getMeta, setMeta, hk, ih]

/-- C8: `validate` returns `true` iff `source_ip` and `payload` are both
non-empty, and for each failed check the corresponding human-readable
error string has been appended to `metadata["validation_errors"]` of the
resulting message. -/
theorem validator_validate_spec (msg : Message) :
    ((validate msg).1 = true ↔ msg.source_ip ≠ "" ∧ msg.payload ≠ "") ∧
    (msg.source_ip = "" →
      "Missing required field: source_ip"
        ∈ (getMeta "validation_errors" (validate msg).2.metadata).getD []) ∧
    (msg.payload = "" →
      "Payload cannot be empty"
        ∈ (getMeta "validation_errors" (validate msg).2.metadata).getD []) := by
  unfold validate
  by_cases hs : msg.source_ip = "" <;> by_cases hp : msg.payload = "" <;>
    simp [hs, hp, getMeta_setMeta]

/-- C8 witness: a message with empty `source_ip` fails validation and
the matching error string is recorded. -/
theorem validator_validate_spec_witness :
    let m : Message :=
      { id := "m0", timestamp := 0, source_ip := "", message_type := .SYSLOG,
        severity := .INFO, payload := "hello", metadata := [] }
    (validate m).1 = false ∧
    "Missing required field: source_ip"
      ∈ (getMeta "validation_errors" (validate m).2.metadata).getD [] := by
  intro m
  have h := validator_validate_spec m
  refine ⟨?_, h.2.1 rfl⟩
  have := h.1
  simp only [show m.source_ip = "" from rfl] at this
  cases hb : (validate m).1 with
  | false => rfl
  | true => exact absurd ((this.mp hb).1) (by simp)

/-- C10: after `validate` returns — with either result — the metadata of
the message carries the key `validation_errors`; when the message is
valid and no prior errors were recorded the entry is the empty list. -/
theorem validator_ensures_errors_key (msg : Message) :
    (getMeta "validation_errors" (validate msg).2.metadata).isSome = true ∧
    ((validate msg).1 = true →
      getMeta "validation_errors" msg.metadata = none →
      getMeta "validation_errors" (validate msg).2.metadata = some []) := by
  unfold validate
  by_cases hs : msg.source_ip = "" <;> by_cases hp : msg.payload = "" <;>
    rcases hkey : getMeta "validation_errors" msg.metadata with _ | prior <;>
    simp [hs, hp, hkey, getMeta_setMeta]

/-- C10 witness: a valid message with empty metadata gains an empty
`validation_errors` entry. -/
theorem validator_ensures_errors_key_witness :
    let m : Message :=
      { id := "m1", timestamp := 0, source_ip := "10.0.0.1",
        message_type := .SYSLOG, severity := .INFO, payload := "hello",
        metadata := [] }
    getMeta "validation_errors" (validate m).2.metadata = some [] := by
  intro m
  exact (validator_ensures_errors_key m).2 (by decide) (by decide)

/-! ## Alert rules (`mutt/models/rules.py`) and PatternMatcher
(`mutt/processors/pattern_matcher.py`) -/

/-- `ActionType` enum. -/
inductive ActionType where
  | STORE | DISCARD | WEBHOOK
  deriving DecidableEq, Repr

/-- The dynamically-typed `pattern_type` field of an `AlertRule`.  Python
does not force the field to hold a `PatternType` member; `other` stands
for any value outside the enum, which the matcher's final `else` branch
skips. -/
inductive PatternTypeField where
  | REGEX | KEYWORD | EXACT
  | other (repr_ : String)
  deriving DecidableEq, Repr

/-- `AlertRule` dataclass. -/
structure AlertRule where
  id : String
  name : String
  pattern_type : PatternTypeField
  pattern : String
  actions : List ActionType
  enabled : Bool := true
  deriving DecidableEq

/-- `needle.isPrefixOf hay` on character lists, written out so the
matcher below is self-contained. -/
def listStartsWith : List Char → List Char → Bool
  | [], _ => true
  | _ :: _, [] => false
  | a :: as, b :: bs => a = b && listStartsWith as bs

/-- Python's `needle in hay` on strings: substring containment. -/
def listContainsSub (needle : List Char) : List Char → Bool
  | [] => needle.isEmpty
  | c :: rest => listStartsWith needle (c :: rest) || listContainsSub needle rest

/-- Python `str.lower()`, ASCII portion. -/
def pyLower (s : String) : String := String.mk (s.toList.map Char.toLower)

/-- One iteration of the `for rule in self.rules` loop of
`PatternMatcher.match`, accumulating into `matching_rules`.  `search`
is the oracle for `re.search(pattern, payload, re.IGNORECASE)`; regex
evaluation is delegated to it exactly as the source delegates to the
`re` module (patterns that fail to compile are outside the model). -/
def matchStep (search : String → String → Bool) (msg : Message)
    (matching_rules : List AlertRule) (rule : AlertRule) : List AlertRule :=
  -- Skip disabled rules
  if !rule.enabled then matching_rules
  -- Skip rules without a pattern
  else if rule.pattern = "" then matching_rules
  else
    match rule.pattern_type with
    | .REGEX =>
        if search rule.pattern msg.payload then matching_rules ++ [rule]
        else matching_rules
    | .KEYWORD =>
        if listContainsSub (pyLower rule.pattern).toList (pyLower msg.payload).toList
        then matching_rules ++ [rule] else matching_rules
    | .EXACT =>
        if rule.pattern = msg.payload then matching_rules ++ [rule]
        else matching_rules
    | .other _ => matching_rules

/-- `PatternMatcher.match` (named `matchRules` because `match` is a Lean
keyword): fold of the loop body over the rule list, starting from the
empty accumulator. -/
def matchRules (search : String → String → Bool) (rules : List AlertRule)
    (msg : Message) : List AlertRule :=
  rules.foldl (matchStep search msg) []

/-- The matching criterion exactly as the claim words it: enabled,
non-empty pattern, known pattern type, and per-type match of the pattern
against the payload (REGEX: case-insensitive search; KEYWORD:
case-insensitive substring; EXACT: case-sensitive equality). -/
def claimRuleMatches (search : String → String → Bool) (msg : Message)
    (rule : AlertRule) : Bool :=
  rule.enabled && rule.pattern ≠ "" &&
    match rule.pattern_type with
    | .REGEX => search rule.pattern msg.payload
    | .KEYWORD =>
        listContainsSub (pyLower rule.pattern).toList (pyLower msg.payload).toList
    | .EXACT => rule.pattern = msg.payload
    | .other _ => false

lemma matchStep_eq (search : String → String → Bool) (msg : Message)
    (acc : List AlertRule) (rule : AlertRule) :
    matchStep search msg acc rule =
      if claimRuleMatches search msg rule then acc ++ [rule] else acc := by
  unfold matchStep claimRuleMatches
  cases he : rule.enabled <;> by_cases hp : rule.pattern = "" <;>
    cases rule.pattern_type <;> simp [he, hp]

lemma foldl_matchStep_eq (search : String → String → Bool) (msg : Message)
    (rules acc : List AlertRule) :
    rules.foldl (matchStep search msg) acc
      = acc ++ rules.filter (claimRuleMatches search msg) := by
  induction rules generalizing acc with
  | nil => simp
  | cons r rs ih =>
      rw [List.foldl_cons, matchStep_eq, ih, List.filter_cons]
      by_cases h : claimRuleMatches search msg r <;> simp [h]

/-- C6: `PatternMatcher.match` returns exactly the rules — in the
original order — that are enabled, have a non-empty pattern, a known
pattern type, and whose pattern matches the payload under the per-type
semantics; disabled, empty-pattern and unknown-type rules never appear. -/
theorem patternMatcher_match_filter (search : String → String → Bool)
    (rules : List AlertRule) (msg : Message) :
    matchRules search rules msg = rules.filter (claimRuleMatches search msg) := by
  unfold matchRules
  simpa using foldl_matchStep_eq search msg rules []

/-- C6 witness: the spec's scenario — payload
`authentication failure for admin` against a keyword, an exact, a regex
and a non-matching keyword rule returns exactly the first three, in
order (the regex oracle here decides the concrete pattern
`auth.*failure`). -/
theorem patternMatcher_match_filter_witness :
    let msg : Message :=
      { id := "m2", timestamp := 0, source_ip := "10.0.0.1",
        message_type := .SYSLOG, severity := .INFO,
        payload := "authentication failure for admin", metadata := [] }
    let search : String → String → Bool := fun p s =>
      p = "auth.*failure" &&
        (listContainsSub "auth".toList (pyLower s).toList &&
         listContainsSub "failure".toList (pyLower s).toList)
    let r1 : AlertRule :=
      { id := "r1", name := "kw", pattern_type := .KEYWORD,
        pattern := "authentication failure", actions := [.STORE] }
    let r2 : AlertRule :=
      { id := "r2", name := "exact", pattern_type := .EXACT,
        pattern := "authentication failure for admin", actions := [.STORE] }
    let r3 : AlertRule :=
      { id := "r3", name := "re", pattern_type := .REGEX,
        pattern := "auth.*failure", actions := [.STORE] }
    let r4 : AlertRule :=
      { id := "r4", name := "kw2", pattern_type := .KEYWORD,
        pattern := "success", actions := [.STORE] }
    matchRules search [r1, r2, r3, r4] msg = [r1, r2, r3] := by
  intro msg search r1 r2 r3 r4
  rw [patternMatcher_match_filter search [r1, r2, r3, r4] msg]
  decide

/-! ## MessageRouter (`mutt/processors/message_router.py`)

A handler is an async callable `(Message, List[AlertRule]) -> None`;
its completed outcome is either normal return or a raised exception,
embedded as `Except String Unit`.  `route` builds
`rules_by_action` (a `defaultdict` iterated in insertion order, which
Python dicts preserve), collects one task per action type that has a
registered handler, and awaits them with `asyncio.gather(*tasks)` —
`return_exceptions` left at its default `False`, so the first raised
exception is re-raised by `await gather(...)` inside `route`.  The
embedding runs the (pure) handler outcomes in task order. -/

/-- Outcome of an awaited handler: normal return or raised exception. -/
def HandlerOutcome : Type := Except String Unit

instance : DecidableEq HandlerOutcome := fun a b =>
  match a, b with
  | .ok (), .ok () => isTrue rfl
  | .error e, .error f =>
      if h : e = f then isTrue (by rw [h])
      else isFalse (fun hh => h (by cases hh; rfl))
  | .ok (), .error _ => isFalse (fun hh => by cases hh)
  | .error _, .ok () => isFalse (fun hh => by cases hh)

/-- A registered handler, as the function from its arguments to its
completed outcome. -/
def Handler : Type := Message → List AlertRule → HandlerOutcome

/-- `rules_by_action[action].append(rule)`: groups keep first-insertion
key order, appends at the end of the group. -/
def addToGroup (groups : List (ActionType × List AlertRule))
    (action : ActionType) (rule : AlertRule) :
    List (ActionType × List AlertRule) :=
  match groups with
  | [] => [(action, [rule])]
  | (a, rs) :: t =>
      if a = action then (a, rs ++ [rule]) :: t
      else (a, rs) :: addToGroup t action rule

/-- The `rules_by_action` dictionary built by the double loop in
`route`. -/
def rules_by_action (rules : List AlertRule) :
    List (ActionType × List AlertRule) :=
  rules.foldl
    (fun groups rule =>
      rule.actions.foldl (fun gs action => addToGroup gs action rule) groups)
    []

/-- The `tasks` list of `route`: one handler call per action type with a
registered handler, in dictionary order. -/
def routeTasks (handlers : ActionType → Option Handler) (msg : Message)
    (rules : List AlertRule) : List HandlerOutcome :=
  (rules_by_action rules).filterMap
    (fun g => (handlers g.1).map (fun h => h msg g.2))

/-- `await asyncio.gather(*tasks)` with `return_exceptions=False`: if
some task raised, `await` re-raises (the first raised exception —
modeled as the first in task order); otherwise it returns normally. -/
def gatherOutcomes : List HandlerOutcome → HandlerOutcome
  | [] => .ok ()
  | .ok () :: ts => gatherOutcomes ts
  | .error e :: _ => .error e

/-- `MessageRouter.route`. -/
def route (handlers : ActionType → Option Handler) (msg : Message)
    (rules : List AlertRule) : HandlerOutcome :=
  if rules.isEmpty then .ok ()
  else
    let tasks := routeTasks handlers msg rules
    if tasks.isEmpty then .ok ()
    else gatherOutcomes tasks

/-- C2 counterexample: with one rule requesting STORE and a registered
STORE handler that raises, `route` does **not** complete normally — the
handler's exception propagates to `route`'s caller, contradicting the
claim at this concrete input. -/
theorem route_counterexample :
    let msg : Message :=
      { id := "m3", timestamp := 0, source_ip := "10.0.0.1",
        message_type := .SYSLOG, severity := .INFO, payload := "x",
        metadata := [] }
    let rule : AlertRule :=
      { id := "r", name := "r", pattern_type := .KEYWORD, pattern := "x",
        actions := [.STORE] }
    let handlers : ActionType → Option Handler := fun a =>
      match a with
      | .STORE => some (fun _ _ => .error "handler boom")
      | _ => none
    route handlers msg [rule] = .error "handler boom" ∧
      (Except.error "handler boom" : HandlerOutcome) ≠ .ok () := by
  exact ⟨rfl, by simp⟩

lemma gatherOutcomes_ok_iff (ts : List HandlerOutcome) :
    gatherOutcomes ts = .ok () ↔ ∀ t ∈ ts, t = .ok () := by
  induction ts with
  | nil => simp [gatherOutcomes]
  | cons t ts ih =>
      match t with
      | .ok () => simp [gatherOutcomes, ih]
      | .error e => simp [gatherOutcomes]

/-- C2 amended: `route` completes normally iff every invoked handler
returns normally; a raised handler exception propagates out of `route`
(it is the enclosing `MessageProcessor._process_message` that catches
and logs it, keeping the processing loop alive). -/
theorem route_ok_iff_handlers_ok (handlers : ActionType → Option Handler)
    (msg : Message) (rules : List AlertRule) :
    route handlers msg rules = .ok () ↔
      ∀ t ∈ routeTasks handlers msg rules, t = .ok () := by
  unfold route
  by_cases hr : rules.isEmpty
  · simp only [hr, if_true]
    have : rules = [] := List.isEmpty_iff.mp hr
    subst this
    simp [routeTasks, rules_by_action]
  · simp only [hr, if_false]
    by_cases ht : (routeTasks handlers msg rules).isEmpty
    · have : routeTasks handlers msg rules = [] := List.isEmpty_iff.mp ht
      simp [this, ht]
    · simp [ht, gatherOutcomes_ok_iff]

/-- C2 amended witness: at the counterexample input, `route` is not
normal and indeed one invoked task raised. -/
theorem route_ok_iff_handlers_ok_witness :
    let msg : Message :=
      { id := "m4", timestamp := 0, source_ip := "10.0.0.1",
        message_type := .SYSLOG, severity := .INFO, payload := "x",
        metadata := [] }
    let rule : AlertRule :=
      { id := "r", name := "r", pattern_type := .KEYWORD, pattern := "x",
        actions := [.STORE] }
    let handlers : ActionType → Option Handler := fun a =>
      match a with
      | .STORE => some (fun _ _ => .ok ())
      | _ => none
    route handlers msg [rule] = .ok () := by
  intro msg rule handlers
  exact (route_ok_iff_handlers_ok handlers msg [rule]).mpr (by decide)

/-! ## FileBuffer (`mutt/storage/buffer.py`)

One buffered line is the JSON object written by `write`.  The embedding
keeps the line as its decoded dictionary: `json.dumps` of a dict with
these keys followed by `json.loads` of the same text is the identity,
`datetime.fromisoformat ∘ datetime.isoformat` is the identity on the
abstract timestamp, and metadata is assumed JSON-serializable (as the
round-trip property requires), so only the enum `.value` conversions are
modeled at the string level where re-parsing can genuinely fail. -/

/-- The on-disk JSON object of one buffer line (`msg_dict` in
`FileBuffer.write`). -/
structure MsgDict where
  id : String
  timestamp : Nat
  source_ip : String
  message_type : String
  severity : String
  payload : String
  metadata : Metadata
  deriving DecidableEq

/-- The `msg_dict` built by `FileBuffer.write`. -/
def msgToDict (msg : Message) : MsgDict :=
  { id := msg.id, timestamp := msg.timestamp, source_ip := msg.source_ip,
    message_type := msg.message_type.value, severity := msg.severity.value,
    payload := msg.payload, metadata := msg.metadata }

/-- Reconstruction of a `Message` from one parsed buffer line in
`FileBuffer._flush_sync`; `none` models the `(json.JSONDecodeError,
KeyError, ValueError)` branch that skips the line. -/
def dictToMessage (d : MsgDict) : Option Message := do
  let mt ← MessageType.ofValue d.message_type
  let sv ← Severity.ofValue d.severity
  some { id := d.id, timestamp := d.timestamp, source_ip := d.source_ip,
         message_type := mt, severity := sv, payload := d.payload,
         metadata := d.metadata }

/-- State of a `FileBuffer`: the in-memory line list and the contents of
`buffer_active.jsonl` (`none` while the file does not exist). -/
structure BufferState where
  memory : List MsgDict
  file : Option (List MsgDict)
  deriving DecidableEq

/-- `FileBuffer._flush_memory_to_disk`: append the memory lines to the
file (creating it if absent — `open(..., "a")`) and clear memory; no-op
on empty memory. -/
def flushMemoryToDisk (st : BufferState) : BufferState :=
  if st.memory.isEmpty then st
  else { memory := [], file := some (st.file.getD [] ++ st.memory) }

/-- `FileBuffer.write`: serialize, append to memory, spill to disk when
the memory buffer has reached `flush_threshold`. -/
def bufferWrite (flush_threshold : Nat) (msg : Message) (st : BufferState) :
    BufferState :=
  let mem := st.memory ++ [msgToDict msg]
  if flush_threshold ≤ mem.length then
    flushMemoryToDisk { st with memory := mem }
  else { st with memory := mem }

/-- `FileBuffer.flush`: force memory to disk, then read every line back
(skipping lines that fail to parse), truncate the file, and return the
parsed messages. -/
def bufferFlush (st : BufferState) : List Message × BufferState :=
  let st1 := flushMemoryToDisk st
  match st1.file with
  | none => ([], st1)
  | some lines => (lines.filterMap dictToMessage, { st1 with file := some [] })

lemma dictToMessage_msgToDict (msg : Message) :
    dictToMessage (msgToDict msg) = some msg := by
  cases msg with
  | mk id ts ip mt sv payload md =>
      cases mt <;> cases sv <;> rfl

/-- C5: round-trip — starting from an empty buffer (no pending memory
lines; the on-disk file absent or empty), `write m` then `flush`
returns exactly `[m]` (equality in all seven persisted fields, which
are exactly the fields of `Message`), for every flush threshold. -/
theorem fileBuffer_write_flush_roundtrip (flush_threshold : Nat)
    (msg : Message) (st : BufferState)
    (hmem : st.memory = [])
    (hfile : st.file = none ∨ st.file = some []) :
    (bufferFlush (bufferWrite flush_threshold msg st)).1 = [msg] := by
  have hfile' : st.file.getD [] = [] := by
    rcases hfile with h | h <;> simp [h]
  unfold bufferWrite
  by_cases hthr : flush_threshold ≤ (st.memory ++ [msgToDict msg]).length
  · simp only [hthr, if_true]
    unfold bufferFlush flushMemoryToDisk
    simp [hmem, hfile', dictToMessage_msgToDict]
  · simp only [hthr, if_false]
    unfold bufferFlush flushMemoryToDisk
    simp [hmem, hfile', dictToMessage_msgToDict]

/-- C5 witness: a concrete message through a fresh buffer with the
default threshold 100. -/
theorem fileBuffer_write_flush_roundtrip_witness :
    let m : Message :=
      { id := "m5", timestamp := 42, source_ip := "10.0.0.1",
        message_type := .SYSLOG, severity := .NOTICE, payload := "hello",
        metadata := [("k", ["v"])] }
    (bufferFlush (bufferWrite 100 m { memory := [], file := none })).1 = [m] := by
  intro m
  exact fileBuffer_write_flush_roundtrip 100 m
    { memory := [], file := none } rfl (Or.inl rfl)

/-! ## SNMPv3 credentials (`mutt/models/credentials.py`)

Python's `sorted` is a stable sort; the embedding uses insertion sort,
which is stable as well, over the key `priority`. -/

/-- `SNMPv3Credential` dataclass. -/
structure SNMPv3Credential where
  priority : Nat
  auth_type : String
  auth_password : String
  priv_type : String
  priv_password : String
  active : Bool := true
  deriving DecidableEq

/-- `SNMPv3CredentialSet` dataclass. -/
structure SNMPv3CredentialSet where
  username : String
  credentials : List SNMPv3Credential := []
  deriving DecidableEq

/-- The `key=lambda x: x.priority` order used by `sorted`. -/
def credLe (a b : SNMPv3Credential) : Prop := a.priority ≤ b.priority

instance : DecidableRel credLe := fun a b => by
  unfold credLe
  infer_instance

instance : IsTotal SNMPv3Credential credLe :=
  ⟨fun a b => Nat.le_total a.priority b.priority⟩

instance : IsTrans SNMPv3Credential credLe :=
  ⟨fun _ _ _ h1 h2 => Nat.le_trans h1 h2⟩

/-- `SNMPv3CredentialSet.get_active_credentials`: filter to the active
credentials, then sort ascending by priority. -/
def get_active_credentials (s : SNMPv3CredentialSet) : List SNMPv3Credential :=
  List.insertionSort credLe (s.credentials.filter (fun c => c.active))

/-- C9: `get_active_credentials` returns exactly the credentials whose
`active` flag is set (as a permutation of the filtered list), sorted
ascending by priority; in particular when exactly one credential is
active the result is exactly that credential. -/
theorem credentialSet_active_sorted (s : SNMPv3CredentialSet) :
    (get_active_credentials s).Perm
        (s.credentials.filter (fun c => c.active)) ∧
    List.Sorted credLe (get_active_credentials s) ∧
    (∀ c : SNMPv3Credential,
      s.credentials.filter (fun c => c.active) = [c] →
      get_active_credentials s = [c]) := by
  refine ⟨List.perm_insertionSort credLe _, List.sorted_insertionSort credLe _,
    fun c hc => ?_⟩
  have hperm : (get_active_credentials s).Perm [c] := by
    unfold get_active_credentials
    rw [hc]
    exact List.perm_insertionSort credLe [c]
  exact List.perm_singleton.mp hperm

/-- C9 witness: the spec's rotation scenario — after flipping the
`active` flags the set returns exactly the priority-2 credential with
the new password. -/
theorem credentialSet_active_sorted_witness :
    let c1 : SNMPv3Credential :=
      { priority := 1, auth_type := "SHA", auth_password := "old",
        priv_type := "AES", priv_password := "p1", active := false }
    let c2 : SNMPv3Credential :=
      { priority := 2, auth_type := "SHA", auth_password := "new",
        priv_type := "AES", priv_password := "p2", active := true }
    let s : SNMPv3CredentialSet := { username := "u", credentials := [c1, c2] }
    get_active_credentials s = [c2] := by
  intro c1 c2 s
  exact (credentialSet_active_sorted s).2.2 c2 (by decide)

/-! ## AuthFailureTracker (`mutt/storage/auth_failure_tracker.py`)

The `snmpv3_auth_failures` table is a list of rows; `username` carries a
UNIQUE constraint, so `INSERT ... ON CONFLICT(username) DO UPDATE`
updates the single conflicting row when one exists and inserts a fresh
row otherwise.  The embedded update touches every row of the conflicting
username, which coincides with SQLite's behaviour on every state the
constraint admits (at most one such row). -/

/-- A row of `snmpv3_auth_failures`. -/
structure AuthRow where
  id : String
  username : String
  hostname : String
  num_failures : Nat
  last_failure : Nat
  deriving DecidableEq

/-- One `record_failure(username, hostname)` call, together with the
`uuid4` and `datetime.now(UTC)` values it draws. -/
structure RecOp where
  username : String
  hostname : String
  time : Nat
  newId : String
  deriving DecidableEq

/-- `AuthFailureTracker.record_failure`: upsert keyed by `username` —
on conflict increment `num_failures`, take the latest `hostname` and
`last_failure`; otherwise insert with count 1. -/
def record_failure (op : RecOp) (tbl : List AuthRow) : List AuthRow :=
  if tbl.any (fun r => r.username = op.username) then
    tbl.map (fun r =>
      if r.username = op.username then
        { r with num_failures := r.num_failures + 1,
                 hostname := op.hostname, last_failure := op.time }
      else r)
  else
    tbl ++ [{ id := op.newId, username := op.username,
              hostname := op.hostname, num_failures := 1,
              last_failure := op.time }]

/-- A sequence of `record_failure` calls, applied in order. -/
def recordSeq (ops : List RecOp) (tbl : List AuthRow) : List AuthRow :=
  ops.foldl (fun t op => record_failure op t) tbl

/-- The rows of the table carrying username `u`. -/
def rowsFor (u : String) (tbl : List AuthRow) : List AuthRow :=
  tbl.filter (fun r => r.username = u)

/-- A result dictionary of `get_all_failures` (the `id` column is not
selected). -/
structure AuthFailureView where
  username : String
  hostname : String
  num_failures : Nat
  last_failure : Nat
  deriving DecidableEq

/-- `ORDER BY num_failures DESC, last_failure DESC`. -/
def authOrder (a b : AuthRow) : Prop :=
  b.num_failures < a.num_failures ∨
    (a.num_failures = b.num_failures ∧ b.last_failure ≤ a.last_failure)

instance : DecidableRel authOrder := fun a b => by
  unfold authOrder
  infer_instance

/-- Row → result dictionary. -/
def AuthRow.toView (r : AuthRow) : AuthFailureView :=
  { username := r.username, hostname := r.hostname,
    num_failures := r.num_failures, last_failure := r.last_failure }

/-- `AuthFailureTracker.get_all_failures`: full scan ordered by
`(num_failures DESC, last_failure DESC)`, projected to dictionaries. -/
def get_all_failures (tbl : List AuthRow) : List AuthFailureView :=
  (List.insertionSort authOrder tbl).map AuthRow.toView

lemma record_failure_rowsFor_ne (op : RecOp) (u : String)
    (tbl : List AuthRow) (h : op.username ≠ u) :
    rowsFor u (record_failure op tbl) = rowsFor u tbl := by
  unfold record_failure rowsFor
  by_cases hany : tbl.any (fun r => r.username = op.username)
  · simp only [hany, if_true]
    rw [List.filter_map]
    have hcongr :
        tbl.filter
          ((fun r : AuthRow => decide (r.username = u)) ∘
            (fun r =>
              if r.username = op.username then
                { r with num_failures := r.num_failures + 1,
                         hostname := op.hostname, last_failure := op.time }
              else r)) = tbl.filter (fun r => r.username = u) := by
      apply List.filter_congr
      intro r _
      by_cases hr : r.username = op.username <;> simp [hr]
    rw [hcongr]
    have hid :
        (tbl.filter (fun r => r.username = u)).map
          (fun r =>
            if r.username = op.username then
              { r with num_failures := r.num_failures + 1,
                       hostname := op.hostname, last_failure := op.time }
            else r)
          = (tbl.filter (fun r => r.username = u)).map id := by
      apply List.map_congr_left
      intro x hx
      have hxu : x.username = u := by
        simpa using (List.mem_filter.mp hx).2
      have hxne : ¬x.username = op.username := by
        rw [hxu]
        exact fun he => h he.symm
      simp [hxne]
    rw [hid, List.map_id]
  · rw [Bool.not_eq_true] at hany
    simp only [hany, Bool.false_eq_true, if_false]
    rw [List.filter_append]
    simp [h]

lemma record_failure_rowsFor_none (op : RecOp) (tbl : List AuthRow)
    (h : rowsFor op.username tbl = []) :
    rowsFor op.username (record_failure op tbl) =
      [{ id := op.newId, username := op.username, hostname := op.hostname,
         num_failures := 1, last_failure := op.time }] := by
  have hany : tbl.any (fun r => r.username = op.username) = false := by
    rw [List.any_eq_false]
    intro r hr
    have := (List.filter_eq_nil_iff.mp h) r hr
    simpa using this
  unfold record_failure rowsFor
  simp only [hany, Bool.false_eq_true, if_false]
  rw [List.filter_append]
  unfold rowsFor at h
  rw [h]
  simp

lemma record_failure_rowsFor_one (op : RecOp) (tbl : List AuthRow)
    (r : AuthRow) (h : rowsFor op.username tbl = [r]) :
    rowsFor op.username (record_failure op tbl) =
      [{ r with num_failures := r.num_failures + 1,
                hostname := op.hostname, last_failure := op.time }] := by
  have hrmem : r ∈ tbl.filter (fun x => x.username = op.username) := by
    unfold rowsFor at h
    rw [h]
    exact List.mem_singleton_self r
  have hrtbl : r ∈ tbl := (List.mem_filter.mp hrmem).1
  have hruser : r.username = op.username := by
    have := (List.mem_filter.mp hrmem).2
    simpa using this
  unfold record_failure rowsFor
  have hany : tbl.any (fun x => x.username = op.username) = true :=
    List.any_eq_true.mpr ⟨r, hrtbl, by simpa using hruser⟩
  simp only [hany, if_true]
  rw [List.filter_map]
  have hcongr :
      tbl.filter
        ((fun x : AuthRow => decide (x.username = op.username)) ∘
          (fun x =>
            if x.username = op.username then
              { x with num_failures := x.num_failures + 1,
                       hostname := op.hostname, last_failure := op.time }
            else x)) = tbl.filter (fun x => x.username = op.username) := by
    apply List.filter_congr
    intro x _
    by_cases hx : x.username = op.username <;> simp [hx]
  rw [hcongr]
  unfold rowsFor at h
  rw [h]
  simp [hruser]

lemma recordSeq_rowsFor (u : String) (ops : List RecOp) (tbl : List AuthRow)
    (h0 : rowsFor u tbl = []) :
    (ops.filter (fun o => o.username = u) = [] ∧
       rowsFor u (recordSeq ops tbl) = []) ∨
    (∃ i lastOp,
       (ops.filter (fun o => o.username = u)).getLast? = some lastOp ∧
       rowsFor u (recordSeq ops tbl) =
         [{ id := i, username := u, hostname := lastOp.hostname,
            num_failures := (ops.filter (fun o => o.username = u)).length,
            last_failure := lastOp.time }]) := by
  induction ops using List.reverseRecOn with
  | nil => exact Or.inl ⟨rfl, h0⟩
  | append_singleton ops op ih =>
      have hseq : recordSeq (ops ++ [op]) tbl
          = record_failure op (recordSeq ops tbl) := by
        unfold recordSeq
        rw [List.foldl_append]
        rfl
      have hfil : (ops ++ [op]).filter (fun o => o.username = u)
          = ops.filter (fun o => o.username = u)
              ++ [op].filter (fun o => o.username = u) :=
        List.filter_append ..
      by_cases hop : op.username = u
      · have hfil1 : [op].filter (fun o => o.username = u) = [op] := by
          simp [hop]
        rcases ih with ⟨hnil, hrows⟩ | ⟨i, lastOp, hlast, hrows⟩
        · refine Or.inr ⟨op.newId, op, ?_, ?_⟩
          · rw [hfil, hnil, hfil1]
            rfl
          · rw [hseq]
            have := record_failure_rowsFor_none op (recordSeq ops tbl)
              (by rw [hop]; exact hrows)
            rw [hop] at this
            rw [this]
            rw [hfil, hnil, hfil1]
            simp
        · refine Or.inr ⟨i, op, ?_, ?_⟩
          · rw [hfil, hfil1]
            exact List.getLast?_concat ..
          · rw [hseq]
            have hone : rowsFor op.username (recordSeq ops tbl) =
                [{ id := i, username := u, hostname := lastOp.hostname,
                   num_failures :=
                     (ops.filter (fun o => o.username = u)).length,
                   last_failure := lastOp.time }] := by
              rw [hop]
              exact hrows
            have := record_failure_rowsFor_one op (recordSeq ops tbl) _ hone
            rw [hop] at this
            rw [this, hfil, hfil1]
            simp
      · rcases ih with ⟨hnil, hrows⟩ | ⟨i, lastOp, hlast, hrows⟩
        · refine Or.inl ⟨?_, ?_⟩
          · rw [hfil, hnil]
            simp [hop]
          · rw [hseq, record_failure_rowsFor_ne op u _ hop]
            exact hrows
        · refine Or.inr ⟨i, lastOp, ?_, ?_⟩
          · rw [hfil]
            have : [op].filter (fun o => o.username = u) = [] := by
              simp [hop]
            rw [this, List.append_nil]
            exact hlast
          · rw [hseq, record_failure_rowsFor_ne op u _ hop]
            have : (ops ++ [op]).filter (fun o => o.username = u)
                = ops.filter (fun o => o.username = u) := by
              rw [hfil]
              simp [hop]
            rw [this]
            exact hrows

/-- C4: starting from a table with no row for username `u`, after any
sequence of `record_failure` calls whose `u`-calls are non-empty (with
`lastOp` the most recent `u`-call), `get_all_failures` contains exactly
one row for `u`; its `num_failures` is the number of `record_failure`
calls for `u` and its `hostname` (and `last_failure`) come from the most
recent call. -/
theorem authTracker_record_upsert (u : String) (ops : List RecOp)
    (tbl : List AuthRow)
    (h0 : rowsFor u tbl = [])
    (lastOp : RecOp)
    (hlast : (ops.filter (fun o => o.username = u)).getLast? = some lastOp) :
    (get_all_failures (recordSeq ops tbl)).filter (fun v => v.username = u)
      = [{ username := u, hostname := lastOp.hostname,
           num_failures := (ops.filter (fun o => o.username = u)).length,
           last_failure := lastOp.time }] := by
  rcases recordSeq_rowsFor u ops tbl h0 with ⟨hnil, _⟩ | ⟨i, l, hl, hrows⟩
  · rw [hnil] at hlast
    exact absurd hlast (by simp)
  · have hle : l = lastOp := by
      rw [hl] at hlast
      exact Option.some_injective _ hlast
    subst hle
    unfold get_all_failures
    rw [List.filter_map]
    have hcongr :
        (List.insertionSort authOrder (recordSeq ops tbl)).filter
          ((fun v : AuthFailureView => decide (v.username = u)) ∘
            AuthRow.toView)
          = (List.insertionSort authOrder (recordSeq ops tbl)).filter
              (fun r => r.username = u) := by
      apply List.filter_congr
      intro r _
      simp [AuthRow.toView]
    rw [hcongr]
    have hperm :
        ((List.insertionSort authOrder (recordSeq ops tbl)).filter
            (fun r => r.username = u)).Perm
          ((recordSeq ops tbl).filter (fun r => r.username = u)) :=
      (List.perm_insertionSort authOrder (recordSeq ops tbl)).filter _
    unfold rowsFor at hrows
    rw [hrows] at hperm
    rw [List.perm_singleton.mp hperm]
    rfl

/-- C4 witness: the spec's scenario —
`record("u1","h1"); record("u1","h2"); record("u1","h3")` on an empty
table leaves exactly one `u1` row with `num_failures = 3` and
`hostname = "h3"`. -/
theorem authTracker_record_upsert_witness :
    (get_all_failures
        (recordSeq
          [{ username := "u1", hostname := "h1", time := 1, newId := "a" },
           { username := "u1", hostname := "h2", time := 2, newId := "b" },
           { username := "u1", hostname := "h3", time := 3, newId := "c" }]
          [])).filter (fun v => v.username = "u1")
      = [{ username := "u1", hostname := "h3", num_failures := 3,
           last_failure := 3 }] := by
  have h := authTracker_record_upsert "u1"
    [{ username := "u1", hostname := "h1", time := 1, newId := "a" },
     { username := "u1", hostname := "h2", time := 2, newId := "b" },
     { username := "u1", hostname := "h3", time := 3, newId := "c" }]
    [] (by decide)
    { username := "u1", hostname := "h3", time := 3, newId := "c" }
    (by decide)
  exact h.trans (by decide)

/-! ## ArchiveManager (`mutt/storage/archive_manager.py`)

`archive_old_messages` selects the rows of `messages` older than the
cutoff (ordered ascending by timestamp), writes one JSON line per row to
a fresh archive file, deletes those rows and inserts one index row into
`archives`.  The cutoff (`utcnow() - timedelta(days=days_retention)`)
and the generated filename are parameters of the embedding; each JSON
line of the file is kept as its decoded row dictionary (`json.dumps` of
the row dict emits exactly one line, and the stored metadata blob is
always the output of `json.dumps`, so `json.loads` of it succeeds). -/

/-- A row of the `messages` table as selected by the archive query
(`id, timestamp, source_ip, type, severity, payload, metadata`). -/
structure MsgRow where
  id : String
  timestamp : Nat
  source_ip : String
  type : String
  severity : String
  payload : String
  metadata : String
  deriving DecidableEq

/-- A row of the `archives` table. -/
structure ArchiveRow where
  filename : String
  start_date : Nat
  end_date : Nat
  record_count : Nat
  deriving DecidableEq

/-- The store state that `archive_old_messages` touches: the `messages`
table, the `archives` table, and the archive directory (filename ↦
lines). -/
structure StoreState where
  messages : List MsgRow
  archives : List ArchiveRow
  files : List (String × List MsgRow)
  deriving DecidableEq

/-- `ORDER BY timestamp ASC`. -/
def msgRowLe (a b : MsgRow) : Prop := a.timestamp ≤ b.timestamp

instance : DecidableRel msgRowLe := fun a b => by
  unfold msgRowLe
  infer_instance

/-- Python `min` on a non-empty list (never applied to `[]`). -/
def pyMin : List Nat → Nat
  | [] => 0
  | h :: t => t.foldl Nat.min h

/-- Python `max` on a non-empty list (never applied to `[]`). -/
def pyMax : List Nat → Nat
  | [] => 0
  | h :: t => t.foldl Nat.max h

/-- `ArchiveManager.archive_old_messages`: `cutoff` is the computed
cutoff instant and `filename` the generated `archive_<stamp>.jsonl`
name (fresh by construction). -/
def archive_old_messages (cutoff : Nat) (filename : String)
    (st : StoreState) : StoreState :=
  let rows := List.insertionSort msgRowLe
    (st.messages.filter (fun r => r.timestamp < cutoff))
  if rows.isEmpty then st
  else
    let timestamps := rows.map (fun r => r.timestamp)
    { messages := st.messages.filter (fun r => ¬r.timestamp < cutoff),
      archives := st.archives ++
        [{ filename := filename, start_date := pyMin timestamps,
           end_date := pyMax timestamps, record_count := rows.length }],
      files := st.files ++ [(filename, rows)] }

/-- C3: after `archive_old_messages` no remaining `messages` row is
older than the cutoff; every selected row is gone from `messages`; when
anything was selected, the new archive file holds exactly as many lines
as the `record_count` of the inserted `archives` row; and when nothing
is older than the cutoff the call is a no-op. -/
theorem archiveManager_archive_old (cutoff : Nat) (filename : String)
    (st : StoreState) :
    (∀ r ∈ (archive_old_messages cutoff filename st).messages,
        ¬r.timestamp < cutoff) ∧
    (∀ r ∈ st.messages, r.timestamp < cutoff →
        r ∉ (archive_old_messages cutoff filename st).messages) ∧
    (st.messages.filter (fun r => r.timestamp < cutoff) ≠ [] →
      ∃ lines rec,
        (archive_old_messages cutoff filename st).files
            = st.files ++ [(filename, lines)] ∧
        (archive_old_messages cutoff filename st).archives
            = st.archives ++ [rec] ∧
        lines.length = rec.record_count ∧
        rec.filename = filename) ∧
    (st.messages.filter (fun r => r.timestamp < cutoff) = [] →
        archive_old_messages cutoff filename st = st) := by
  have hperm := List.perm_insertionSort msgRowLe
    (st.messages.filter (fun r => r.timestamp < cutoff))
  by_cases hold : st.messages.filter (fun r => r.timestamp < cutoff) = []
  · have hrows : List.insertionSort msgRowLe
        (st.messages.filter (fun r => r.timestamp < cutoff)) = [] := by
      rw [hold] at hperm ⊢
      exact hperm.eq_nil
    have hnoop : archive_old_messages cutoff filename st = st := by
      unfold archive_old_messages
      simp [hrows]
    refine ⟨?_, ?_, fun hne => absurd hold hne, fun _ => hnoop⟩
    · intro r hr
      rw [hnoop] at hr
      have := (List.filter_eq_nil_iff.mp hold) r hr
      simpa using this
    · intro r hr hlt
      have := (List.filter_eq_nil_iff.mp hold) r hr
      simp at this
      omega
  · have hrows : ¬(List.insertionSort msgRowLe
        (st.messages.filter (fun r => r.timestamp < cutoff))).isEmpty := by
      rw [List.isEmpty_iff]
      intro hnil
      rw [hnil] at hperm
      exact hold hperm.symm.eq_nil
    have hunf : archive_old_messages cutoff filename st =
        { messages := st.messages.filter (fun r => ¬r.timestamp < cutoff),
          archives := st.archives ++
            [{ filename := filename,
               start_date := pyMin ((List.insertionSort msgRowLe
                 (st.messages.filter (fun r => r.timestamp < cutoff))).map
                   (fun r => r.timestamp)),
               end_date := pyMax ((List.insertionSort msgRowLe
                 (st.messages.filter (fun r => r.timestamp < cutoff))).map
                   (fun r => r.timestamp)),
               record_count := (List.insertionSort msgRowLe
                 (st.messages.filter (fun r => r.timestamp < cutoff))).length }],
          files := st.files ++
            [(filename, List.insertionSort msgRowLe
               (st.messages.filter (fun r => r.timestamp < cutoff)))] } := by
      unfold archive_old_messages
      rw [if_neg hrows]
    refine ⟨?_, ?_, fun _ => ?_, fun h => absurd h hold⟩
    · intro r hr
      rw [hunf] at hr
      have := (List.mem_filter.mp hr).2
      simpa using this
    · intro r _ hlt hmem
      rw [hunf] at hmem
      have := (List.mem_filter.mp hmem).2
      simp at this
      omega
    · exact ⟨_, _, by rw [hunf], by rw [hunf], rfl, rfl⟩

/-- C3 witness: a store with one old and one fresh row, cutoff 5 — the
old row is archived into a one-line file recorded with count 1. -/
theorem archiveManager_archive_old_witness :
    let r1 : MsgRow :=
      { id := "a", timestamp := 1, source_ip := "10.0.0.1",
        type := "SYSLOG", severity := "INFO", payload := "old",
        metadata := "\x7b\x7d" }
    let r2 : MsgRow :=
      { id := "b", timestamp := 10, source_ip := "10.0.0.2",
        type := "SYSLOG", severity := "INFO", payload := "fresh",
        metadata := "\x7b\x7d" }
    let st : StoreState :=
      { messages := [r1, r2], archives := [], files := [] }
    ∃ lines rec,
      (archive_old_messages 5 "archive_20260101_000000.jsonl" st).files
          = st.files ++ [("archive_20260101_000000.jsonl", lines)] ∧
      (archive_old_messages 5 "archive_20260101_000000.jsonl" st).archives
          = st.archives ++ [rec] ∧
      lines.length = rec.record_count ∧
      rec.filename = "archive_20260101_000000.jsonl" := by
  intro r1 r2 st
  exact (archiveManager_archive_old 5 "archive_20260101_000000.jsonl" st).2.2.1
    (by decide)
